import Mathlib

/-
Verification of the image-clarity subsystem of the wrong-notebook repository.

The subsystem lives in src/src/components/image-clarity-checker.tsx (the
library part after the component: detectImageClarity, enhanceImageClarity,
processImageWithClarityCheck) and src/src/app/api/image-clarity/route.ts
(the POST handler).  The external AI service is modelled by the outcome of
each sequential call: either a thrown error or a reply record.  JavaScript
dynamic values flowing out of JSON.parse are modelled by the type JValue,
and the JavaScript coercions the code performs on them (truthiness, the
relational operators against a number literal, template-string rendering)
are modelled by executable functions.  Fallible steps return Except so that
the try/catch structure of the source is visible; the catch blocks are the
match arms turning an error back into the static default values.
-/

/-- Dynamic JavaScript value as produced by JSON.parse, plus the value
undefined produced by a missing property. -/
inductive JValue where
  | undefined
  | null
  | bool (b : Bool)
  | num (q : Rat)
  | str (s : String)
  | arr (xs : List JValue)
  | obj (kvs : List (String × JValue))

/-- The opening brace character. -/
def lbrace : Char := Char.ofNat 123

/-- The closing brace character. -/
def rbrace : Char := Char.ofNat 125

/-- JSON insignificant whitespace (RFC 8259: space, tab, newline, return). -/
def isJsonWs (c : Char) : Bool :=
  c = ' ' || c = '\t' || c = '\n' || c = '\r'

/-- Value of a hexadecimal digit, if the character is one. -/
def hexDigitVal (c : Char) : Option Nat :=
  if '0' ≤ c ∧ c ≤ '9' then some (c.toNat - 48)
  else if 'a' ≤ c ∧ c ≤ 'f' then some (c.toNat - 87)
  else if 'A' ≤ c ∧ c ≤ 'F' then some (c.toNat - 55)
  else none

/-- Translation of a JSON string escape character (after the backslash). -/
def escChar (e : Char) : Option Char :=
  if e = '"' then some '"'
  else if e = '\\' then some '\\'
  else if e = '/' then some '/'
  else if e = 'b' then some (Char.ofNat 8)
  else if e = 'f' then some (Char.ofNat 12)
  else if e = 'n' then some '\n'
  else if e = 'r' then some '\r'
  else if e = 't' then some '\t'
  else none

/-- Body of a JSON string after the opening quote: returns the decoded
characters and the remaining input after the closing quote.  Unescaped
control characters are rejected as JSON.parse does.  A lone surrogate
escape is mapped through Char.ofNat (which substitutes the null character
for invalid scalar values); no claim depends on surrogate handling. -/
def parseStringBody : List Char → Option (List Char × List Char)
  | [] => none
  | c :: rest =>
    if c = '"' then some ([], rest)
    else if c = '\\' then
      match rest with
      | [] => none
      | e :: rest2 =>
        if e = 'u' then
          match rest2 with
          | h1 :: h2 :: h3 :: h4 :: rest3 =>
            match hexDigitVal h1, hexDigitVal h2, hexDigitVal h3, hexDigitVal h4 with
            | some a, some b, some c2, some d =>
              match parseStringBody rest3 with
              | some (tail, rem) =>
                some (Char.ofNat (((a * 16 + b) * 16 + c2) * 16 + d) :: tail, rem)
              | none => none
            | _, _, _, _ => none
          | _ => none
        else
          match escChar e with
          | some ch =>
            match parseStringBody rest2 with
            | some (tail, rem) => some (ch :: tail, rem)
            | none => none
          | none => none
    else if c.toNat < 32 then none
    else
      match parseStringBody rest with
      | some (tail, rem) => some (c :: tail, rem)
      | none => none

/-- Numeric value of a list of decimal digits. -/
def digitsVal (ds : List Char) : Nat :=
  ds.foldl (fun a c => a * 10 + (c.toNat - 48)) 0

/-- Build the rational value of a JSON number literal from its parts. -/
def mkNumVal (neg : Bool) (ip fp : List Char) (eneg : Bool) (ed : List Char) : JValue :=
  let mant : Nat := digitsVal ip * 10 ^ fp.length + digitsVal fp
  let mantI : Int := if neg then -(mant : Int) else (mant : Int)
  let e : Nat := digitsVal ed
  .num (if eneg then mkRat mantI (10 ^ (fp.length + e)) else mkRat (mantI * 10 ^ e) (10 ^ fp.length))

/-- JSON number literal at the head of the input, per the strict JSON
grammar: optional minus, integer part without leading zeros, optional
fraction with at least one digit, optional exponent with at least one
digit.  Decimal literals are exact rationals here; JSON.parse rounds them
to binary floating point, a difference no claim depends on. -/
def parseJsonNumber (cs : List Char) : Option (JValue × List Char) :=
  let (neg, cs1) : Bool × List Char :=
    match cs with
    | c :: r => if c = '-' then (true, r) else (false, cs)
    | [] => (false, cs)
  let ip := cs1.takeWhile Char.isDigit
  let afterInt := cs1.drop ip.length
  if ip = [] then none
  else if ip.length > 1 ∧ ip.head? = some '0' then none
  else
    let (fp, afterFrac) : List Char × List Char :=
      match afterInt with
      | c :: r =>
        if c = '.' then (r.takeWhile Char.isDigit, r.drop (r.takeWhile Char.isDigit).length)
        else ([], afterInt)
      | [] => ([], afterInt)
    if afterInt.head? = some '.' ∧ fp = [] then none
    else
      match afterFrac with
      | c :: r =>
        if c = 'e' ∨ c = 'E' then
          let (esign, r1) : Bool × List Char :=
            match r with
            | e1 :: r2 =>
              if e1 = '+' then (false, r2)
              else if e1 = '-' then (true, r2)
              else (false, r)
            | [] => (false, r)
          let ed := r1.takeWhile Char.isDigit
          if ed = [] then none
          else some (mkNumVal neg ip fp esign ed, r1.drop ed.length)
        else some (mkNumVal neg ip fp false [], afterFrac)
      | [] => some (mkNumVal neg ip fp false [], [])

mutual

/-- JSON value at the head of the input (after skipping whitespace),
fuelled to bound recursion; the fuel passed by parseJson always suffices. -/
def parseV : Nat → List Char → Option (JValue × List Char)
  | 0, _ => none
  | fuel + 1, cs0 =>
    let cs := cs0.dropWhile isJsonWs
    match cs with
    | [] => none
    | c :: rest =>
      if c = 'n' then
        match rest with
        | 'u' :: 'l' :: 'l' :: r => some (.null, r)
        | _ => none
      else if c = 't' then
        match rest with
        | 'r' :: 'u' :: 'e' :: r => some (.bool true, r)
        | _ => none
      else if c = 'f' then
        match rest with
        | 'a' :: 'l' :: 's' :: 'e' :: r => some (.bool false, r)
        | _ => none
      else if c = '"' then
        match parseStringBody rest with
        | some (sChars, r) => some (.str ⟨sChars⟩, r)
        | none => none
      else if c = '[' then
        let r1 := rest.dropWhile isJsonWs
        match r1 with
        | ']' :: r2 => some (.arr [], r2)
        | _ =>
          match parseItems fuel rest with
          | some (vs, r2) => some (.arr vs, r2)
          | none => none
      else if c = lbrace then
        let r1 := rest.dropWhile isJsonWs
        match r1 with
        | c2 :: r2 =>
          if c2 = rbrace then some (.obj [], r2)
          else
            match parseFields fuel rest with
            | some (kvs, r3) => some (.obj kvs, r3)
            | none => none
        | [] => none
      else parseJsonNumber cs

/-- One or more comma-separated array items followed by the closing
bracket. -/
def parseItems : Nat → List Char → Option (List JValue × List Char)
  | 0, _ => none
  | fuel + 1, cs =>
    match parseV fuel cs with
    | none => none
    | some (v, r1) =>
      let r2 := r1.dropWhile isJsonWs
      match r2 with
      | ']' :: r3 => some ([v], r3)
      | ',' :: r3 =>
        match parseItems fuel r3 with
        | some (vs, r4) => some (v :: vs, r4)
        | none => none
      | _ => none

/-- One or more comma-separated object members followed by the closing
brace. -/
def parseFields : Nat → List Char → Option (List (String × JValue) × List Char)
  | 0, _ => none
  | fuel + 1, cs =>
    let cs1 := cs.dropWhile isJsonWs
    match cs1 with
    | c :: r =>
      if c = '"' then
        match parseStringBody r with
        | some (kChars, r1) =>
          let r2 := r1.dropWhile isJsonWs
          match r2 with
          | ':' :: r3 =>
            match parseV fuel r3 with
            | some (v, r4) =>
              let r5 := r4.dropWhile isJsonWs
              match r5 with
              | cEnd :: r6 =>
                if cEnd = rbrace then some ([(⟨kChars⟩, v)], r6)
                else if cEnd = ',' then
                  match parseFields fuel r6 with
                  | some (kvs, r7) => some ((⟨kChars⟩, v) :: kvs, r7)
                  | none => none
                else none
              | [] => none
            | none => none
          | _ => none
        | none => none
      else none
    | [] => none

end

/-- Model of JSON.parse: parse one JSON value and require only whitespace
to remain.  Returns none where JSON.parse throws a SyntaxError. -/
def parseJson (s : String) : Option JValue :=
  match parseV (2 * s.length + 4) s.data with
  | some (v, rest) => if (rest.dropWhile isJsonWs).isEmpty then some v else none
  | none => none

/-- Model of text.match with the pattern brace, any characters, brace
(greedy): the match, when it exists, runs from the first opening brace of
the text to the last closing brace after it. -/
def jsonMatch (s : String) : Option String :=
  let t1 := s.data.dropWhile (fun c => c != lbrace)
  let t2 := (t1.reverse.dropWhile (fun c => c != rbrace)).reverse
  if t2.isEmpty then none else some ⟨t2⟩

/-- Last-binding-wins lookup in a parsed object, as JSON.parse keeps the
last of duplicate keys; a missing key yields the value undefined.  (A
stored value is never undefined, since JSON cannot encode undefined.) -/
def lastLookup (kvs : List (String × JValue)) (k : String) : JValue :=
  match kvs with
  | [] => .undefined
  | (k0, v0) :: rest =>
    match lastLookup rest k with
    | .undefined => if k0 = k then v0 else .undefined
    | v => v

/-- JavaScript property read v[k]: fields of a parsed object, undefined on
every other value reachable here. -/
def jsGet (v : JValue) (k : String) : JValue :=
  match v with
  | .obj kvs => lastLookup kvs k
  | _ => .undefined

/-- The nullish-coalescing operator: null and undefined fall back to the
default, everything else (false and 0 included) passes through. -/
def nullish (v d : JValue) : JValue :=
  match v with
  | .undefined => d
  | .null => d
  | _ => v

/-- Default only for undefined, as in destructuring defaults and object
spread: null does not fall back. -/
def undefD (v d : JValue) : JValue :=
  match v with
  | .undefined => d
  | _ => v

/-- JavaScript truthiness of the values in play (no NaN value is
constructible from JSON, so the numeric case is plain nonzero). -/
def jsTruthy : JValue → Bool
  | .undefined => false
  | .null => false
  | .bool b => b
  | .num q => decide (q ≠ 0)
  | .str s => decide (s ≠ "")
  | .arr _ => true
  | .obj _ => true

/-- The or-else of a || chain on strings, where the empty string is the
only falsy string (absent reply fields are modelled as the empty string). -/
def jsOrStr (a b : String) : String :=
  if a = "" then b else a

/-- JavaScript number domain for comparisons: NaN, signed infinity, or a
finite value (held exactly as a rational). -/
inductive JSNum where
  | nan
  | inf (pos : Bool)
  | fin (q : Rat)

/-- Integer rationals render as in JavaScript; the rendering of non-integer
rationals is a placeholder (JavaScript float formatting is not modelled,
and no claim depends on it). -/
def ratToJsString (q : Rat) : String :=
  if q.den = 1 then toString q.num else toString q.num ++ "/" ++ toString q.den

/-- Rendering of one array element inside Array.prototype.toString: null
and undefined render empty, nested containers are approximated. -/
def jsToStringShallow : JValue → String
  | .undefined => ""
  | .null => ""
  | .bool b => if b then "true" else "false"
  | .num q => ratToJsString q
  | .str s => s
  | .arr _ => ""
  | .obj _ => "[object Object]"

/-- JavaScript ToString on the values in play (template literals): arrays
join their elements with commas at one level of depth. -/
def jsToString : JValue → String
  | .undefined => "undefined"
  | .null => "null"
  | .bool b => if b then "true" else "false"
  | .num q => ratToJsString q
  | .str s => s
  | .arr xs => String.intercalate "," (xs.map jsToStringShallow)
  | .obj _ => "[object Object]"

/-- Whitespace trimmed by string-to-number conversion (ASCII whitespace,
no-break space and the BOM; other Unicode spaces are not modelled). -/
def jsWsChar (c : Char) : Bool :=
  c = ' ' || c = '\t' || c = '\n' || c = '\r' || c = Char.ofNat 11 || c = Char.ofNat 12 ||
    c = Char.ofNat 160 || c = Char.ofNat 65279

/-- Hexadecimal digit test for numeric string literals. -/
def isHexDigitB (c : Char) : Bool :=
  (hexDigitVal c).isSome

/-- Octal digit test. -/
def isOctDigit (c : Char) : Bool :=
  '0' ≤ c && c ≤ '7'

/-- Binary digit test. -/
def isBinDigit (c : Char) : Bool :=
  c = '0' || c = '1'

/-- Fold a digit list in a given base (digits assumed valid). -/
def baseVal (base : Nat) (ds : List Char) : Nat :=
  ds.foldl (fun a c => a * base + (hexDigitVal c).getD 0) 0

/-- Unsigned decimal part of a JavaScript string numeric literal after the
optional sign: Infinity, or digits with optional fraction and exponent
(unlike JSON, a bare trailing dot and a leading dot are allowed). -/
def decStrNum (neg : Bool) (cs : List Char) : JSNum :=
  if cs = "Infinity".data then .inf !neg
  else
    let ip := cs.takeWhile Char.isDigit
    let r1 := cs.drop ip.length
    let (fp, r2) : List Char × List Char :=
      match r1 with
      | c :: t =>
        if c = '.' then (t.takeWhile Char.isDigit, t.drop (t.takeWhile Char.isDigit).length)
        else ([], r1)
      | [] => ([], r1)
    if ip = [] ∧ fp = [] then .nan
    else
      let expPart : Option (Bool × Nat) :=
        match r2 with
        | [] => some (false, 0)
        | c :: t =>
          if c = 'e' ∨ c = 'E' then
            let (es, t2) : Bool × List Char :=
              match t with
              | s :: t3 =>
                if s = '+' then (false, t3)
                else if s = '-' then (true, t3)
                else (false, t)
              | [] => (false, t)
            let ed := t2.takeWhile Char.isDigit
            if ed ≠ [] ∧ t2.drop ed.length = [] then some (es, digitsVal ed) else none
          else none
      match expPart with
      | none => .nan
      | some (es, e) =>
        let mant : Nat := digitsVal ip * 10 ^ fp.length + digitsVal fp
        let mantI : Int := if neg then -(mant : Int) else (mant : Int)
        .fin (if es then mkRat mantI (10 ^ (fp.length + e)) else mkRat (mantI * 10 ^ e) (10 ^ fp.length))

/-- Signed decimal string numeric literal. -/
def decSigned (cs : List Char) : JSNum :=
  match cs with
  | '-' :: t => decStrNum true t
  | '+' :: t => decStrNum false t
  | _ => decStrNum false cs

/-- JavaScript Number() on a string: trim whitespace, empty means zero,
then a non-decimal integer literal (0x, 0o, 0b, signless) or a signed
decimal literal; anything else is NaN. -/
def strToNum (s : String) : JSNum :=
  let cs := ((s.data.dropWhile jsWsChar).reverse.dropWhile jsWsChar).reverse
  match cs with
  | [] => .fin 0
  | '0' :: x :: rest =>
    if x = 'x' ∨ x = 'X' then
      if rest ≠ [] ∧ rest.all isHexDigitB then .fin (baseVal 16 rest) else .nan
    else if x = 'o' ∨ x = 'O' then
      if rest ≠ [] ∧ rest.all isOctDigit then .fin (baseVal 8 rest) else .nan
    else if x = 'b' ∨ x = 'B' then
      if rest ≠ [] ∧ rest.all isBinDigit then .fin (baseVal 2 rest) else .nan
    else decSigned cs
  | _ => decSigned cs

/-- JavaScript ToNumber on the values in play: objects convert through
their string form "[object Object]" hence NaN, arrays through their
comma-joined string form. -/
def jsToNumber : JValue → JSNum
  | .undefined => .nan
  | .null => .fin 0
  | .bool b => .fin (if b then 1 else 0)
  | .num q => .fin q
  | .str s => strToNum s
  | .arr xs => strToNum (String.intercalate "," (xs.map jsToStringShallow))
  | .obj _ => .nan

/-- The JavaScript comparison v >= n against a number literal: numeric
conversion, false for NaN. -/
def jsGE (v : JValue) (n : Rat) : Bool :=
  match jsToNumber v with
  | .nan => false
  | .inf pos => pos
  | .fin q => decide (n ≤ q)

/-- The JavaScript comparison v > n against a number literal. -/
def jsGT (v : JValue) (n : Rat) : Bool :=
  match jsToNumber v with
  | .nan => false
  | .inf pos => pos
  | .fin q => decide (n < q)

/-- Reply record of one reanswerQuestion call of the external AI service.
The code reads only answerText and analysis; a field the provider left
undefined or null is modelled as the empty string, which the || chains of
the source treat identically. -/
structure AIReply where
  answerText : String
  analysis : String

/-- One external call either resolves to a reply or rejects (throws). -/
def AICall : Type := Except Unit AIReply

/-- The free text the detection and enhancement parsers read from a reply:
result.answerText or else result.analysis or else the empty string. -/
def textOf (r : AIReply) : String :=
  jsOrStr r.answerText (jsOrStr r.analysis "")

/-- ClarityCheckResult of the source.  The fields hold whatever dynamic
values the nullish-coalescing defaults produced. -/
structure ClarityCheckResult where
  isBlurry : JValue
  clarityScore : JValue
  recommendation : JValue

/-- ImageEnhancementResult of the source.  The base64 fields are
JavaScript strings that may be undefined (modelled as none) when the
split of a malformed data URL has no second segment. -/
structure ImageEnhancementResult where
  enhancedBase64 : Option String
  originalBase64 : Option String
  improvementScore : JValue
  success : Bool

/-- The body of detectImageClarity up to the catch: the awaited call and
JSON.parse are the two points that can throw. -/
def detectTry (imageBase64 mimeType : String) (c1 : AICall) : Except Unit ClarityCheckResult :=
  match c1 with
  | .error e => .error e
  | .ok result =>
    let text := textOf result
    match jsonMatch text with
    | some m =>
      match parseJson m with
      | none => .error ()
      | some parsed =>
        .ok ⟨nullish (jsGet parsed "isBlurry") (.bool false),
             nullish (jsGet parsed "clarityScore") (.num 80),
             nullish (jsGet parsed "recommendation") (.str "检测完成")⟩
    | none => .ok ⟨.bool false, .num 80, .str "检测完成，图片质量良好"⟩

/-- detectImageClarity: the try body with its catch arm, which converts
any failure into the optimistic default. -/
def detectImageClarity (imageBase64 mimeType : String) (c1 : AICall) : Except Unit ClarityCheckResult :=
  match detectTry imageBase64 mimeType c1 with
  | .ok r => .ok r
  | .error _ => .ok ⟨.bool false, .num 80, .str "检测失败，使用原图"⟩

/-- Test that the second list begins with the characters of the first. -/
def leadChars : List Char → List Char → Bool
  | [], _ => true
  | _ :: _, [] => false
  | p :: ps, c :: cs => p = c && leadChars ps cs

/-- String.startsWith, stated on the character lists so that it evaluates
inside the kernel. -/
def strStarts (s p : String) : Bool :=
  leadChars p.data s.data

/-- The second element of imageBase64.split(chr 44), as indexing [1]
yields: the segment between the first and second comma, undefined (none)
when the string has no comma. -/
def jsSplitComma1 (s : String) : Option String :=
  match s.data.dropWhile (fun c => c != ',') with
  | [] => none
  | _ :: rest => some ⟨rest.takeWhile (fun c => c != ',')⟩

/-- The originalBase64 binding at the top of enhanceImageClarity: a data
URL keeps only its second comma-separated segment, anything else passes
through. -/
def originalBase64Of (imageBase64 : String) : Option String :=
  if strStarts imageBase64 "data:" then jsSplitComma1 imageBase64 else some imageBase64

/-- The try body of enhanceImageClarity: two awaited calls, then a
best-effort JSON merge guarded by its own inner try.  The merged
enhancement object is only ever read at its confidence key (canEnhance is
only logged), so the spread merge is modelled at that key: a key present
in the parsed object, null included, overrides the default 0, an absent
key keeps it; a parse failure is absorbed by the inner catch and keeps the
defaults. -/
def enhConfidence (enhancementResult : AIReply) : JValue :=
  match jsonMatch (textOf enhancementResult) with
  | none => .num 0
  | some m =>
    match parseJson m with
    | none => .num 0
    | some p => undefD (jsGet p "confidence") (.num 0)

/-- The try body of enhanceImageClarity, continued: two awaited calls,
then the merged confidence drives the result. -/
def enhanceTry (imageBase64 mimeType : String) (c1 c2 : AICall) (originalBase64 : Option String) :
    Except Unit ImageEnhancementResult :=
  match c1 with
  | .error e => .error e
  | .ok _analysisResult =>
    match c2 with
    | .error e => .error e
    | .ok enhancementResult =>
      .ok ⟨originalBase64, originalBase64, enhConfidence enhancementResult,
           jsGT (enhConfidence enhancementResult) 50⟩

/-- enhanceImageClarity: no pixel work happens; both image fields of the
result are the originalBase64 binding, and the catch arm returns it with a
zero score. -/
def enhanceImageClarity (imageBase64 mimeType : String) (c1 c2 : AICall) :
    Except Unit ImageEnhancementResult :=
  let originalBase64 := originalBase64Of imageBase64
  match enhanceTry imageBase64 mimeType c1 c2 originalBase64 with
  | .ok r => .ok r
  | .error _ => .ok ⟨originalBase64, originalBase64, .num 0, false⟩

/-- The aggregate returned by processImageWithClarityCheck. -/
structure ProcessOutcome where
  finalImage : Option String
  clarityInfo : ClarityCheckResult
  enhancementInfo : Option ImageEnhancementResult
  suggestedText : Option String

/-- processImageWithClarityCheck: detect, then either return early on a
clear image or run enhancement plus the text-extraction call, whose own
try/catch leaves suggestedText empty on failure.  The four AICall
arguments are the outcomes of the at most four sequential service calls
(detection, the two enhancement calls, text extraction). -/
def processImageWithClarityCheck (imageBase64 mimeType : String) (c1 c2 c3 c4 : AICall) :
    Except Unit ProcessOutcome :=
  match detectImageClarity imageBase64 mimeType c1 with
  | .error e => .error e
  | .ok clarityInfo =>
    if !jsTruthy clarityInfo.isBlurry && jsGE clarityInfo.clarityScore 70 then
      .ok ⟨some imageBase64, clarityInfo, none, none⟩
    else
      match enhanceImageClarity imageBase64 mimeType c2 c3 with
      | .error e => .error e
      | .ok enhancementInfo =>
        let suggestedText : String :=
          match c4 with
          | .error _ => ""
          | .ok textExtraction => textExtraction.answerText
        .ok ⟨if enhancementInfo.success then enhancementInfo.enhancedBase64 else some imageBase64,
             clarityInfo, some enhancementInfo, some suggestedText⟩

/-- Line terminators that the dot of the data-URL pattern never matches. -/
def isLineTerm (c : Char) : Bool :=
  c = '\n' || c = '\r' || c = Char.ofNat 8232 || c = Char.ofNat 8233

/-- The anchored data-URL pattern of the route: after the data: scheme, a
nonempty media-type run up to the first semicolon, the literal base64
marker, then a nonempty payload free of line terminators reaching the end
of the string.  Returns the two capture groups. -/
def dataUrlMatch (s : String) : Option (String × String) :=
  match s.data with
  | 'd' :: 'a' :: 't' :: 'a' :: ':' :: rest =>
    let mime := rest.takeWhile (fun c => c != ';')
    let after := rest.drop mime.length
    if mime.length = 0 then none
    else if leadChars ";base64,".data after then
      let payload := after.drop 8
      if payload.length ≠ 0 ∧ payload.all (fun c => !isLineTerm c) then some (⟨mime⟩, ⟨payload⟩)
      else none
    else none
  | _ => none

/-- The possible responses of the POST handler, abstracting the response
constructors of the surrounding application (status codes and envelopes
live outside this subsystem). -/
inductive ApiResponse where
  | unauthorized
  | badRequest (msg : String)
  | internalError (msg : String)
  | json (payload : JValue)

/-- Serialization of a clarity result into the JSON response payload. -/
def clarityToJson (r : ClarityCheckResult) : JValue :=
  .obj [("isBlurry", r.isBlurry), ("clarityScore", r.clarityScore),
        ("recommendation", r.recommendation)]

/-- POST /api/image-clarity.  The session is a boolean (present or not),
the request body is the JSON value req.json() resolved to, or an error
when it rejected; the four AICall arguments model the AI service as in
processImageWithClarityCheck.  Destructuring throws on a null body, and
calling startsWith on a truthy non-string imageBase64 throws; both are
absorbed by the handler-wide catch into the internal-error response. -/
def POST (authed : Bool) (body : Except Unit JValue) (c1 c2 c3 c4 : AICall) : ApiResponse :=
  if !authed then .unauthorized
  else
    match body with
    | .error _ => .internalError "Failed to process image clarity"
    | .ok b =>
      match b with
      | .null => .internalError "Failed to process image clarity"
      | .undefined => .internalError "Failed to process image clarity"
      | bv =>
        let imageBase64J := jsGet bv "imageBase64"
        let mimeTypeJ := undefD (jsGet bv "mimeType") (.str "image/jpeg")
        let checkOnly := undefD (jsGet bv "checkOnly") (.bool false)
        let _autoEnhance := undefD (jsGet bv "autoEnhance") (.bool false)
        if !jsTruthy imageBase64J then .badRequest "Missing image data"
        else
          match imageBase64J with
          | .str s =>
            let mi : JValue × String :=
              if strStarts s "data:" then
                match dataUrlMatch s with
                | some (m, p) => (.str m, p)
                | none => (mimeTypeJ, s)
              else (mimeTypeJ, s)
            let mt := mi.1
            let img := mi.2
            if jsTruthy checkOnly then
              match detectImageClarity img (jsToString mt) c1 with
              | .ok r => .json (clarityToJson r)
              | .error _ => .internalError "Failed to process image clarity"
            else
              match processImageWithClarityCheck img (jsToString mt) c1 c2 c3 c4 with
              | .error _ => .internalError "Failed to process image clarity"
              | .ok pr =>
                match pr.finalImage with
                | none => .internalError "Failed to process image clarity"
                | some fi =>
                  let originalUrl := "data:" ++ jsToString mt ++ ";base64," ++ img
                  let finalUrl :=
                    if strStarts fi "data:" then fi
                    else "data:" ++ jsToString mt ++ ";base64," ++ fi
                  .json (.obj (
                    [("clarity", clarityToJson pr.clarityInfo),
                     ("image", .obj [("original", .str originalUrl), ("final", .str finalUrl)])]
                    ++ (match pr.enhancementInfo with
                        | some e =>
                          [("enhancement", .obj [("success", .bool e.success),
                                                 ("improvementScore", e.improvementScore)])]
                        | none => [])
                    ++ (match pr.suggestedText with
                        | some t => if t = "" then [] else [("suggestedText", .str t)]
                        | none => [])))
          | _ => .internalError "Failed to process image clarity"

/-! Helper lemmas shared by the claim theorems. -/

/-- The catch arm of detectImageClarity makes it total: every call pattern
resolves to a result. -/
theorem detectImageClarity_isOk (imageBase64 mimeType : String) (c1 : AICall) :
    ∃ r, detectImageClarity imageBase64 mimeType c1 = .ok r := by
  cases c1 with
  | error e1 => exact ⟨_, rfl⟩
  | ok result =>
    rcases hm : jsonMatch (textOf result) with _ | m
    · exact ⟨_, by simp only [detectImageClarity, detectTry, hm]; rfl⟩
    · rcases hp : parseJson m with _ | p
      · exact ⟨_, by simp only [detectImageClarity, detectTry, hm, hp]; rfl⟩
      · exact ⟨_, by simp only [detectImageClarity, detectTry, hm, hp]; rfl⟩

/-- The catch arm of enhanceImageClarity makes it total. -/
theorem enhanceImageClarity_isOk (imageBase64 mimeType : String) (c1 c2 : AICall) :
    ∃ e, enhanceImageClarity imageBase64 mimeType c1 c2 = .ok e := by
  cases c1 with
  | error e1 => exact ⟨_, rfl⟩
  | ok a =>
    cases c2 with
    | error e2 => exact ⟨_, rfl⟩
    | ok r => exact ⟨_, rfl⟩

/-- Both image fields of every enhancement result are the originalBase64
binding of the input. -/
theorem enhanceImageClarity_fields (imageBase64 mimeType : String) (c1 c2 : AICall)
    (e : ImageEnhancementResult)
    (h : enhanceImageClarity imageBase64 mimeType c1 c2 = .ok e) :
    e.enhancedBase64 = originalBase64Of imageBase64 ∧
    e.originalBase64 = originalBase64Of imageBase64 := by
  cases c1 with
  | error e1 =>
    rw [show enhanceImageClarity imageBase64 mimeType (.error e1) c2 =
        .ok ⟨originalBase64Of imageBase64, originalBase64Of imageBase64, .num 0, false⟩ from rfl]
      at h
    cases h
    exact ⟨rfl, rfl⟩
  | ok a =>
    cases c2 with
    | error e2 =>
      rw [show enhanceImageClarity imageBase64 mimeType (.ok a) (.error e2) =
          .ok ⟨originalBase64Of imageBase64, originalBase64Of imageBase64, .num 0, false⟩ from rfl]
        at h
      cases h
      exact ⟨rfl, rfl⟩
    | ok r =>
      rw [show enhanceImageClarity imageBase64 mimeType (.ok a) (.ok r) =
          enhanceTry imageBase64 mimeType (.ok a) (.ok r) (originalBase64Of imageBase64) from rfl]
        at h
      unfold enhanceTry at h
      cases h
      exact ⟨rfl, rfl⟩

/-- Unfolding of the orchestrator once the detection result is known. -/
theorem process_eq_of_detect (imageBase64 mimeType : String) (c1 c2 c3 c4 : AICall)
    (r : ClarityCheckResult)
    (hr : detectImageClarity imageBase64 mimeType c1 = .ok r) :
    processImageWithClarityCheck imageBase64 mimeType c1 c2 c3 c4 =
      if !jsTruthy r.isBlurry && jsGE r.clarityScore 70 then
        .ok ⟨some imageBase64, r, none, none⟩
      else
        match enhanceImageClarity imageBase64 mimeType c2 c3 with
        | .error e => .error e
        | .ok enh =>
          .ok ⟨if enh.success then enh.enhancedBase64 else some imageBase64, r, some enh,
               some (match c4 with | .error _ => "" | .ok t => t.answerText)⟩ := by
  unfold processImageWithClarityCheck
  rw [hr]

/-- The pipeline orchestrator is total as well. -/
theorem processImageWithClarityCheck_isOk (imageBase64 mimeType : String) (c1 c2 c3 c4 : AICall) :
    ∃ o, processImageWithClarityCheck imageBase64 mimeType c1 c2 c3 c4 = .ok o := by
  obtain ⟨r, hr⟩ := detectImageClarity_isOk imageBase64 mimeType c1
  obtain ⟨e, he⟩ := enhanceImageClarity_isOk imageBase64 mimeType c2 c3
  rw [process_eq_of_detect imageBase64 mimeType c1 c2 c3 c4 r hr, he]
  by_cases hc : (!jsTruthy r.isBlurry && jsGE r.clarityScore 70) = true
  · rw [if_pos hc]
    exact ⟨_, rfl⟩
  · rw [if_neg hc]
    exact ⟨_, rfl⟩

/-- Claim C3: for every input and every behaviour of the external AI
service, including calls that throw and replies with no or malformed JSON,
detectImageClarity, enhanceImageClarity and processImageWithClarityCheck
never propagate an exception to their caller: each returns a result, every
failure having been converted at the call site into the corresponding
static default. -/
theorem claim_C3 (imageBase64 mimeType : String) (c1 c2 c3 c4 : AICall) :
    (∃ r, detectImageClarity imageBase64 mimeType c1 = .ok r) ∧
    (∃ e, enhanceImageClarity imageBase64 mimeType c1 c2 = .ok e) ∧
    (∃ o, processImageWithClarityCheck imageBase64 mimeType c1 c2 c3 c4 = .ok o) :=
  ⟨detectImageClarity_isOk imageBase64 mimeType c1,
   enhanceImageClarity_isOk imageBase64 mimeType c1 c2,
   processImageWithClarityCheck_isOk imageBase64 mimeType c1 c2 c3 c4⟩

/-- Claim C9: for every transport or service error raised by the external
AI call during detection, detectImageClarity catches it and returns the
clarity result isBlurry false, clarityScore 80 instead of throwing. -/
theorem claim_C9 (imageBase64 mimeType : String) (e : Unit) :
    detectImageClarity imageBase64 mimeType (.error e) =
      .ok ⟨.bool false, .num 80, .str "检测失败，使用原图"⟩ := rfl

/-- Claim C2: for every input image and every model reply, the enhancement
result has success true exactly when the parsed confidence value exceeds
50, and both of its base64 fields carry the input image bytes unchanged
(the originalBase64 binding, which strips only the data-URL header and is
the input string itself whenever the input is not a data URL), regardless
of success. -/
theorem claim_C2 (imageBase64 mimeType : String) (c1 c2 : AICall) :
    ∃ e, enhanceImageClarity imageBase64 mimeType c1 c2 = .ok e ∧
      e.enhancedBase64 = originalBase64Of imageBase64 ∧
      e.originalBase64 = originalBase64Of imageBase64 ∧
      (strStarts imageBase64 "data:" = false → originalBase64Of imageBase64 = some imageBase64) ∧
      ∀ q : Rat, e.improvementScore = .num q → (e.success = true ↔ 50 < q) := by
  have hplain : strStarts imageBase64 "data:" = false →
      originalBase64Of imageBase64 = some imageBase64 := by
    intro h
    simp [originalBase64Of, h]
  cases c1 with
  | error e1 =>
    refine ⟨⟨originalBase64Of imageBase64, originalBase64Of imageBase64, .num 0, false⟩,
      rfl, rfl, rfl, hplain, ?_⟩
    intro q hq
    cases hq
    simp
  | ok a =>
    cases c2 with
    | error e2 =>
      refine ⟨⟨originalBase64Of imageBase64, originalBase64Of imageBase64, .num 0, false⟩,
        rfl, rfl, rfl, hplain, ?_⟩
      intro q hq
      cases hq
      simp
    | ok r =>
      refine ⟨⟨originalBase64Of imageBase64, originalBase64Of imageBase64,
          enhConfidence r, jsGT (enhConfidence r) 50⟩, rfl, rfl, rfl, hplain, ?_⟩
      intro q hq
      have hq2 : enhConfidence r = .num q := hq
      show jsGT (enhConfidence r) 50 = true ↔ 50 < q
      rw [hq2]
      simp [jsGT, jsToNumber]

/-- Claim C1: for every detection result (stated for the well-typed
results the claim speaks about: a boolean isBlurry and a numeric
clarityScore), the orchestrator produces enhancementInfo and suggestedText
exactly when isBlurry is true or clarityScore < 70; otherwise the outcome
is the original image with the clarity info only, and the later service
calls are never consulted (the outcome is the same for every behaviour of
the enhancement and extraction calls). -/
theorem claim_C1 (imageBase64 mimeType : String) (c1 c2 c3 c4 : AICall)
    (cres : ClarityCheckResult) (b : Bool) (q : Rat)
    (hdet : detectImageClarity imageBase64 mimeType c1 = .ok cres)
    (hb : cres.isBlurry = .bool b) (hq : cres.clarityScore = .num q) :
    ∃ o, processImageWithClarityCheck imageBase64 mimeType c1 c2 c3 c4 = .ok o ∧
      ((o.enhancementInfo.isSome = true ∧ o.suggestedText.isSome = true) ↔ (b = true ∨ q < 70)) ∧
      (¬(b = true ∨ q < 70) →
        o.finalImage = some imageBase64 ∧ o.clarityInfo = cres ∧
        o.enhancementInfo = none ∧ o.suggestedText = none ∧
        ∀ c2a c3a c4a, processImageWithClarityCheck imageBase64 mimeType c1 c2a c3a c4a = .ok o) := by
  have hcond : (!jsTruthy cres.isBlurry && jsGE cres.clarityScore 70)
      = (!b && decide (70 ≤ q)) := by
    rw [hb, hq]
    rfl
  obtain ⟨e, he⟩ := enhanceImageClarity_isOk imageBase64 mimeType c2 c3
  rw [process_eq_of_detect imageBase64 mimeType c1 c2 c3 c4 cres hdet, he, hcond]
  cases b with
  | true =>
    rw [if_neg (by simp)]
    refine ⟨⟨if e.success then e.enhancedBase64 else some imageBase64, cres, some e,
      some (match c4 with | .error _ => "" | .ok t => t.answerText)⟩, rfl, ?_, ?_⟩
    · simp
    · intro hcontra
      exact absurd (Or.inl rfl) hcontra
  | false =>
    by_cases h70 : 70 ≤ q
    · rw [if_pos (by simp [h70])]
      refine ⟨⟨some imageBase64, cres, none, none⟩, rfl, ?_, ?_⟩
      · simp [not_lt.mpr h70]
      · intro _
        refine ⟨rfl, rfl, rfl, rfl, ?_⟩
        intro c2a c3a c4a
        obtain ⟨e2, he2⟩ := enhanceImageClarity_isOk imageBase64 mimeType c2a c3a
        rw [process_eq_of_detect imageBase64 mimeType c1 c2a c3a c4a cres hdet, he2, hcond,
          if_pos (by simp [h70])]
    · rw [if_neg (by simp [h70])]
      refine ⟨⟨if e.success then e.enhancedBase64 else some imageBase64, cres, some e,
        some (match c4 with | .error _ => "" | .ok t => t.answerText)⟩, rfl, ?_, ?_⟩
      · simp [lt_of_not_ge h70]
      · intro hcontra
        exact absurd (Or.inr (lt_of_not_ge h70)) hcontra

/-- Witness for claim C1 at a concrete clear image: score 85, not blurry,
all later calls failing; the hypotheses evaluate by rfl. -/
theorem claim_C1_witness :
    ∃ o, processImageWithClarityCheck "img" "image/jpeg"
      (.ok ⟨"\x7b\"isBlurry\":false,\"clarityScore\":85\x7d", ""⟩)
      (.error ()) (.error ()) (.error ()) = .ok o ∧
      ((o.enhancementInfo.isSome = true ∧ o.suggestedText.isSome = true) ↔
        (false = true ∨ (85 : Rat) < 70)) ∧
      (¬(false = true ∨ (85 : Rat) < 70) →
        o.finalImage = some "img" ∧ o.clarityInfo = ⟨.bool false, .num 85, .str "检测完成"⟩ ∧
        o.enhancementInfo = none ∧ o.suggestedText = none ∧
        ∀ c2a c3a c4a, processImageWithClarityCheck "img" "image/jpeg"
          (.ok ⟨"\x7b\"isBlurry\":false,\"clarityScore\":85\x7d", ""⟩) c2a c3a c4a = .ok o) :=
  claim_C1 "img" "image/jpeg"
    (.ok ⟨"\x7b\"isBlurry\":false,\"clarityScore\":85\x7d", ""⟩)
    (.error ()) (.error ()) (.error ())
    ⟨.bool false, .num 85, .str "检测完成"⟩ false 85 rfl rfl rfl

/-- Claim C5, amended: the finalImage of every outcome is either the input
string itself or the originalBase64 binding (the input with its data-URL
header stripped by a successful enhancement); whenever the input is not a
data URL the finalImage is exactly the input string.  The claim as stated,
finalImage always equal to the input string, fails on data-URL inputs with
a successful enhancement (see the counterexample). -/
theorem claim_C5 (imageBase64 mimeType : String) (c1 c2 c3 c4 : AICall) (o : ProcessOutcome)
    (h : processImageWithClarityCheck imageBase64 mimeType c1 c2 c3 c4 = .ok o) :
    (o.finalImage = some imageBase64 ∨ o.finalImage = originalBase64Of imageBase64) ∧
    (strStarts imageBase64 "data:" = false → o.finalImage = some imageBase64) := by
  obtain ⟨r, hr⟩ := detectImageClarity_isOk imageBase64 mimeType c1
  obtain ⟨e, he⟩ := enhanceImageClarity_isOk imageBase64 mimeType c2 c3
  obtain ⟨hef, _⟩ := enhanceImageClarity_fields imageBase64 mimeType c2 c3 e he
  rw [process_eq_of_detect imageBase64 mimeType c1 c2 c3 c4 r hr, he] at h
  have hplain : strStarts imageBase64 "data:" = false →
      originalBase64Of imageBase64 = some imageBase64 := by
    intro hs
    simp [originalBase64Of, hs]
  by_cases hc : (!jsTruthy r.isBlurry && jsGE r.clarityScore 70) = true
  · rw [if_pos hc] at h
    injection h with h4
    subst h4
    exact ⟨Or.inl rfl, fun _ => rfl⟩
  · rw [if_neg hc] at h
    injection h with h4
    subst h4
    constructor
    · by_cases hs : e.success = true
      · right
        simp [hs, hef]
      · left
        simp [hs]
    · intro hsdata
      by_cases hs : e.success = true
      · simp [hs, hef, hplain hsdata]
      · simp [hs]

/-- Witness for claim C5 at a concrete non-data-URL input with a blurry
detection and successful enhancement. -/
theorem claim_C5_witness :
    ((ProcessOutcome.mk (some "AAA") ⟨.bool true, .num 10, .str "检测完成"⟩
        (some ⟨some "AAA", some "AAA", .num 90, true⟩) (some "")).finalImage = some "AAA" ∨
      (ProcessOutcome.mk (some "AAA") ⟨.bool true, .num 10, .str "检测完成"⟩
        (some ⟨some "AAA", some "AAA", .num 90, true⟩) (some "")).finalImage =
        originalBase64Of "AAA") ∧
    (strStarts "AAA" "data:" = false →
      (ProcessOutcome.mk (some "AAA") ⟨.bool true, .num 10, .str "检测完成"⟩
        (some ⟨some "AAA", some "AAA", .num 90, true⟩) (some "")).finalImage = some "AAA") :=
  claim_C5 "AAA" "image/jpeg"
    (.ok ⟨"\x7b\"isBlurry\":true,\"clarityScore\":10\x7d", ""⟩)
    (.ok ⟨"x", ""⟩) (.ok ⟨"\x7b\"confidence\":90\x7d", ""⟩) (.error ()) _ rfl

/-- Counterexample to claim C5 as stated: on the data-URL input the
successful enhancement branch returns the stripped payload, which is not
the original input string. -/
theorem claim_C5_counterexample :
    Except.map ProcessOutcome.finalImage (processImageWithClarityCheck
      "data:image/jpeg;base64,AAA" "image/jpeg"
      (.ok ⟨"\x7b\"isBlurry\":true,\"clarityScore\":10\x7d", ""⟩)
      (.ok ⟨"x", ""⟩) (.ok ⟨"\x7b\"confidence\":90\x7d", ""⟩) (.error ())) =
      .ok (some "AAA") ∧
    some "AAA" ≠ some "data:image/jpeg;base64,AAA" :=
  ⟨rfl, by decide⟩

/-- Claim C4, amended: the clarityScore of the detection result is the
value parsed from the reply passed through unmodified (the default 80 only
replaces an absent or null field); no clamping to the 0 to 100 range is
performed, so out-of-range values are returned as-is. -/
theorem claim_C4 (imageBase64 mimeType : String) (r : AIReply) (m : String) (p : JValue) (q : Rat)
    (h1 : jsonMatch (textOf r) = some m) (h2 : parseJson m = some p)
    (h3 : jsGet p "clarityScore" = .num q) :
    ∃ cres, detectImageClarity imageBase64 mimeType (.ok r) = .ok cres ∧
      cres.clarityScore = .num q := by
  refine ⟨_, by simp only [detectImageClarity, detectTry, h1, h2]; rfl, ?_⟩
  show nullish (jsGet p "clarityScore") (.num 80) = .num q
  rw [h3]
  rfl

/-- Witness for claim C4 at the out-of-range score 150. -/
theorem claim_C4_witness :
    ∃ cres, detectImageClarity "img" "image/jpeg"
      (.ok ⟨"\x7b\"clarityScore\":150\x7d", ""⟩) = .ok cres ∧
      cres.clarityScore = .num 150 :=
  claim_C4 "img" "image/jpeg" ⟨"\x7b\"clarityScore\":150\x7d", ""⟩
    "\x7b\"clarityScore\":150\x7d" (.obj [("clarityScore", .num 150)]) 150 rfl rfl rfl

/-- Counterexample to claim C4 as stated: a reply carrying score 150
yields a detection result whose clarityScore is 150, outside 0 to 100. -/
theorem claim_C4_counterexample :
    Except.map ClarityCheckResult.clarityScore (detectImageClarity "img" "image/jpeg"
      (.ok ⟨"\x7b\"clarityScore\":150\x7d", ""⟩)) = .ok (.num 150) ∧
    ¬ ((150 : Rat) ≤ 100) :=
  ⟨rfl, by decide⟩

/-- Claim C8: for every model reply in which no JSON object span can be
found, or in which the found span fails to parse, detectImageClarity
returns the default isBlurry false and clarityScore 80 (the two failure
modes differ only in the recommendation text). -/
theorem claim_C8 (imageBase64 mimeType : String) (r : AIReply)
    (h : jsonMatch (textOf r) = none ∨
      ∃ m, jsonMatch (textOf r) = some m ∧ parseJson m = none) :
    ∃ cres, detectImageClarity imageBase64 mimeType (.ok r) = .ok cres ∧
      cres.isBlurry = .bool false ∧ cres.clarityScore = .num 80 := by
  rcases h with h | ⟨m, hm, hp⟩
  · exact ⟨⟨.bool false, .num 80, .str "检测完成，图片质量良好"⟩,
      by simp only [detectImageClarity, detectTry, h], rfl, rfl⟩
  · exact ⟨⟨.bool false, .num 80, .str "检测失败，使用原图"⟩,
      by simp only [detectImageClarity, detectTry, hm, hp], rfl, rfl⟩

/-- Witness for claim C8 on a reply with no braces at all. -/
theorem claim_C8_witness :
    ∃ cres, detectImageClarity "img" "image/jpeg" (.ok ⟨"no json here", ""⟩) = .ok cres ∧
      cres.isBlurry = .bool false ∧ cres.clarityScore = .num 80 :=
  claim_C8 "img" "image/jpeg" ⟨"no json here", ""⟩ (Or.inl rfl)

/-- Claim C7, amended: for every reply whose matched span parses to an
object, fields present with a non-null value override the defaults and
absent fields keep them, in the detection parse and in the
enhancement-judgment merge alike; the two differ on a field present with
value null, which keeps the default in detectImageClarity (nullish
coalescing) but overrides it in the spread merge of enhanceImageClarity. -/
theorem claim_C7 (imageBase64 mimeType : String) (r a : AIReply) (m : String)
    (kvs : List (String × JValue))
    (h1 : jsonMatch (textOf r) = some m) (h2 : parseJson m = some (.obj kvs)) :
    ∃ cres e, detectImageClarity imageBase64 mimeType (.ok r) = .ok cres ∧
      enhanceImageClarity imageBase64 mimeType (.ok a) (.ok r) = .ok e ∧
      (lastLookup kvs "isBlurry" = .undefined → cres.isBlurry = .bool false) ∧
      (∀ v, lastLookup kvs "isBlurry" = v → v ≠ .undefined → v ≠ .null → cres.isBlurry = v) ∧
      (lastLookup kvs "clarityScore" = .undefined → cres.clarityScore = .num 80) ∧
      (∀ v, lastLookup kvs "clarityScore" = v → v ≠ .undefined → v ≠ .null →
        cres.clarityScore = v) ∧
      (lastLookup kvs "confidence" = .undefined → e.improvementScore = .num 0) ∧
      (∀ v, lastLookup kvs "confidence" = v → v ≠ .undefined → e.improvementScore = v) := by
  refine ⟨⟨nullish (lastLookup kvs "isBlurry") (.bool false),
           nullish (lastLookup kvs "clarityScore") (.num 80),
           nullish (lastLookup kvs "recommendation") (.str "检测完成")⟩,
         ⟨originalBase64Of imageBase64, originalBase64Of imageBase64,
          undefD (lastLookup kvs "confidence") (.num 0),
          jsGT (undefD (lastLookup kvs "confidence") (.num 0)) 50⟩,
         ?_, ?_, ?_, ?_, ?_, ?_, ?_, ?_⟩
  · simp only [detectImageClarity, detectTry, h1, h2]
    rfl
  · simp only [enhanceImageClarity, enhanceTry, enhConfidence, h1, h2]
    rfl
  · intro h0
    show nullish (lastLookup kvs "isBlurry") (.bool false) = .bool false
    rw [h0]
    rfl
  · intro v hv hvu hvn
    show nullish (lastLookup kvs "isBlurry") (.bool false) = v
    rw [hv]
    cases v with
    | undefined => exact absurd rfl hvu
    | null => exact absurd rfl hvn
    | bool b => rfl
    | num q => rfl
    | str s => rfl
    | arr xs => rfl
    | obj kvs2 => rfl
  · intro h0
    show nullish (lastLookup kvs "clarityScore") (.num 80) = .num 80
    rw [h0]
    rfl
  · intro v hv hvu hvn
    show nullish (lastLookup kvs "clarityScore") (.num 80) = v
    rw [hv]
    cases v with
    | undefined => exact absurd rfl hvu
    | null => exact absurd rfl hvn
    | bool b => rfl
    | num q => rfl
    | str s => rfl
    | arr xs => rfl
    | obj kvs2 => rfl
  · intro h0
    show undefD (lastLookup kvs "confidence") (.num 0) = .num 0
    rw [h0]
    rfl
  · intro v hv hvu
    show undefD (lastLookup kvs "confidence") (.num 0) = v
    rw [hv]
    cases v with
    | undefined => exact absurd rfl hvu
    | null => rfl
    | bool b => rfl
    | num q => rfl
    | str s => rfl
    | arr xs => rfl
    | obj kvs2 => rfl

/-- Witness for claim C7 on a reply carrying isBlurry true and confidence
60, with clarityScore absent. -/
theorem claim_C7_witness :
    ∃ cres e, detectImageClarity "img" "image/jpeg"
        (.ok ⟨"\x7b\"isBlurry\":true,\"confidence\":60\x7d", ""⟩) = .ok cres ∧
      enhanceImageClarity "img" "image/jpeg" (.ok ⟨"x", ""⟩)
        (.ok ⟨"\x7b\"isBlurry\":true,\"confidence\":60\x7d", ""⟩) = .ok e ∧
      (lastLookup [("isBlurry", .bool true), ("confidence", .num 60)] "isBlurry" = .undefined →
        cres.isBlurry = .bool false) ∧
      (∀ v, lastLookup [("isBlurry", .bool true), ("confidence", .num 60)] "isBlurry" = v →
        v ≠ .undefined → v ≠ .null → cres.isBlurry = v) ∧
      (lastLookup [("isBlurry", .bool true), ("confidence", .num 60)] "clarityScore" = .undefined →
        cres.clarityScore = .num 80) ∧
      (∀ v, lastLookup [("isBlurry", .bool true), ("confidence", .num 60)] "clarityScore" = v →
        v ≠ .undefined → v ≠ .null → cres.clarityScore = v) ∧
      (lastLookup [("isBlurry", .bool true), ("confidence", .num 60)] "confidence" = .undefined →
        e.improvementScore = .num 0) ∧
      (∀ v, lastLookup [("isBlurry", .bool true), ("confidence", .num 60)] "confidence" = v →
        v ≠ .undefined → e.improvementScore = v) :=
  claim_C7 "img" "image/jpeg" ⟨"\x7b\"isBlurry\":true,\"confidence\":60\x7d", ""⟩ ⟨"x", ""⟩
    "\x7b\"isBlurry\":true,\"confidence\":60\x7d"
    [("isBlurry", .bool true), ("confidence", .num 60)] rfl rfl

/-- Counterexample to claim C7 as stated: a field present with value null
is not taken over into the detection result; the nullish-coalescing
default false is returned instead of the present null. -/
theorem claim_C7_counterexample :
    parseJson "\x7b\"isBlurry\":null\x7d" = some (.obj [("isBlurry", .null)]) ∧
    jsGet (.obj [("isBlurry", .null)]) "isBlurry" = .null ∧
    Except.map ClarityCheckResult.isBlurry (detectImageClarity "img" "image/jpeg"
      (.ok ⟨"\x7b\"isBlurry\":null\x7d", ""⟩)) = .ok (.bool false) ∧
    JValue.bool false ≠ JValue.null :=
  ⟨rfl, rfl, rfl, fun h => JValue.noConfusion h⟩

/-- dropWhile skips a block of characters that all satisfy the predicate. -/
theorem dropWhile_append_all {p : Char → Bool} (l1 l2 : List Char)
    (h : ∀ c ∈ l1, p c = true) :
    List.dropWhile p (l1 ++ l2) = List.dropWhile p l2 := by
  induction l1 with
  | nil => rfl
  | cons a t ih =>
    rw [List.cons_append, List.dropWhile_cons, if_pos (h a (List.mem_cons_self a t))]
    exact ih (fun c hc => h c (List.mem_cons_of_mem a hc))

/-- dropWhile stops at a character failing the predicate. -/
theorem dropWhile_cons_false {p : Char → Bool} (a : Char) (l : List Char) (h : p a = false) :
    List.dropWhile p (a :: l) = a :: l := by
  rw [List.dropWhile_cons, if_neg (by simp [h])]

/-- The greedy brace pattern matches the span from the first opening brace
to the last closing brace: with no opening brace before it and no closing
brace after it, the middle part is matched whole. -/
theorem jsonMatch_span (pre mid post : String)
    (hpre : ∀ c ∈ pre.data, c ≠ lbrace)
    (hpost : ∀ c ∈ post.data, c ≠ rbrace)
    (hhead : mid.data.head? = some lbrace)
    (hlast : mid.data.getLast? = some rbrace) :
    jsonMatch (pre ++ mid ++ post) = some mid := by
  obtain ⟨t, ht⟩ : ∃ t, mid.data = lbrace :: t := by
    cases hmd : mid.data with
    | nil => rw [hmd] at hhead; cases hhead
    | cons x xs =>
      rw [hmd] at hhead
      exact ⟨xs, by rw [show x = lbrace from Option.some.inj hhead]⟩
  obtain ⟨t2, ht2⟩ : ∃ t2, mid.data.reverse = rbrace :: t2 := by
    have hrev := List.head?_reverse mid.data
    rw [hlast] at hrev
    cases hmr : mid.data.reverse with
    | nil => rw [hmr] at hrev; cases hrev
    | cons x xs =>
      rw [hmr] at hrev
      exact ⟨xs, by rw [show x = rbrace from Option.some.inj hrev]⟩
  have hd : (pre ++ mid ++ post).data = pre.data ++ (mid.data ++ post.data) := by
    rw [String.data_append, String.data_append, List.append_assoc]
  simp only [jsonMatch, hd]
  have h1 : List.dropWhile (fun c => c != lbrace) (pre.data ++ (mid.data ++ post.data))
      = mid.data ++ post.data := by
    rw [dropWhile_append_all _ _ (fun c hc => by simp [hpre c hc]), ht, List.cons_append,
      dropWhile_cons_false _ _ (by simp), ← List.cons_append, ← ht]
  rw [h1]
  have h2 : List.dropWhile (fun c => c != rbrace) (mid.data ++ post.data).reverse
      = mid.data.reverse := by
    rw [List.reverse_append,
      dropWhile_append_all _ _ (fun c hc => by simp [hpost c (List.mem_reverse.mp hc)]), ht2,
      dropWhile_cons_false _ _ (by simp), ← ht2]
  rw [h2, List.reverse_reverse, ht]
  rw [show (lbrace :: t).isEmpty = false from rfl]
  rw [← ht]
  rfl

/-- Claim C6, amended: the detector does not isolate the first balanced
JSON object; it matches greedily from the first opening brace to the last
closing brace of the reply.  When that span is a single JSON object (no
brace noise around it) the fields of that object determine the result;
when the reply contains several objects separated by text, the span fails
to parse and the default is returned (see the counterexample). -/
theorem claim_C6 (imageBase64 mimeType : String) (r : AIReply) (pre mid post : String)
    (kvs : List (String × JValue))
    (htext : textOf r = pre ++ mid ++ post)
    (hpre : ∀ c ∈ pre.data, c ≠ lbrace)
    (hpost : ∀ c ∈ post.data, c ≠ rbrace)
    (hhead : mid.data.head? = some lbrace)
    (hlast : mid.data.getLast? = some rbrace)
    (hparse : parseJson mid = some (.obj kvs)) :
    ∃ cres, detectImageClarity imageBase64 mimeType (.ok r) = .ok cres ∧
      cres.isBlurry = nullish (lastLookup kvs "isBlurry") (.bool false) ∧
      cres.clarityScore = nullish (lastLookup kvs "clarityScore") (.num 80) := by
  have hm : jsonMatch (textOf r) = some mid := by
    rw [htext]
    exact jsonMatch_span pre mid post hpre hpost hhead hlast
  exact ⟨⟨nullish (lastLookup kvs "isBlurry") (.bool false),
          nullish (lastLookup kvs "clarityScore") (.num 80),
          nullish (lastLookup kvs "recommendation") (.str "检测完成")⟩,
    by simp only [detectImageClarity, detectTry, hm, hparse]; rfl, rfl, rfl⟩

/-- Witness for claim C6: a reply with brace-free noise around one JSON
object uses the fields of that object. -/
theorem claim_C6_witness :
    ∃ cres, detectImageClarity "img" "image/jpeg"
        (.ok ⟨"noise \x7b\"isBlurry\":true\x7d tail", ""⟩) = .ok cres ∧
      cres.isBlurry = nullish (lastLookup [("isBlurry", .bool true)] "isBlurry") (.bool false) ∧
      cres.clarityScore =
        nullish (lastLookup [("isBlurry", .bool true)] "clarityScore") (.num 80) :=
  claim_C6 "img" "image/jpeg" ⟨"noise \x7b\"isBlurry\":true\x7d tail", ""⟩
    "noise " "\x7b\"isBlurry\":true\x7d" " tail" [("isBlurry", .bool true)]
    rfl (by decide) (by decide) rfl rfl rfl

/-- Counterexample to claim C6 as stated: a reply holding two JSON objects
separated by text does not yield the fields of the first object (isBlurry
true, clarityScore 10); the greedy span fails to parse and the default
comes back instead. -/
theorem claim_C6_counterexample :
    detectImageClarity "img" "image/jpeg"
      (.ok ⟨"\x7b\"isBlurry\":true,\"clarityScore\":10\x7d x \x7b\"isBlurry\":false\x7d", ""⟩) =
      .ok ⟨.bool false, .num 80, .str "检测失败，使用原图"⟩ ∧
    parseJson "\x7b\"isBlurry\":true,\"clarityScore\":10\x7d" =
      some (.obj [("isBlurry", .bool true), ("clarityScore", .num 10)]) ∧
    JValue.bool false ≠ JValue.bool true ∧ JValue.num 80 ≠ JValue.num 10 :=
  ⟨rfl, rfl, by simp, by simp⟩

/-- Claim C10: the response of the POST handler does not depend on the
autoEnhance field of the request body: two object bodies agreeing on every
other key (same session and same AI behaviour) produce the same response,
the flag being destructured but never read. -/
theorem claim_C10 (authed : Bool) (c1 c2 c3 c4 : AICall)
    (kvs kvs2 : List (String × JValue))
    (h : ∀ k, k ≠ "autoEnhance" → lastLookup kvs k = lastLookup kvs2 k) :
    POST authed (.ok (.obj kvs)) c1 c2 c3 c4 = POST authed (.ok (.obj kvs2)) c1 c2 c3 c4 := by
  simp only [POST, jsGet]
  rw [h "imageBase64" (by decide), h "mimeType" (by decide), h "checkOnly" (by decide)]

/-- Witness for claim C10: two concrete bodies differing only in
autoEnhance get the same response. -/
theorem claim_C10_witness :
    POST true (.ok (.obj [("imageBase64", .str "abc"), ("autoEnhance", .bool true)]))
      (.error ()) (.error ()) (.error ()) (.error ()) =
    POST true (.ok (.obj [("imageBase64", .str "abc"), ("autoEnhance", .bool false)]))
      (.error ()) (.error ()) (.error ()) (.error ()) :=
  claim_C10 true (.error ()) (.error ()) (.error ()) (.error ())
    [("imageBase64", .str "abc"), ("autoEnhance", .bool true)]
    [("imageBase64", .str "abc"), ("autoEnhance", .bool false)]
    (by
      intro k hk
      have hne : ¬ ("autoEnhance" = k) := fun hh => hk hh.symm
      simp [lastLookup, hne])

/-- Witness for claim C2 at a concrete input and a confidence-60 reply. -/
theorem claim_C2_witness :
    ∃ e, enhanceImageClarity "AAA" "image/jpeg" (.ok ⟨"x", ""⟩)
        (.ok ⟨"\x7b\"confidence\":60\x7d", ""⟩) = .ok e ∧
      e.enhancedBase64 = originalBase64Of "AAA" ∧
      e.originalBase64 = originalBase64Of "AAA" ∧
      (strStarts "AAA" "data:" = false → originalBase64Of "AAA" = some "AAA") ∧
      ∀ q : Rat, e.improvementScore = .num q → (e.success = true ↔ 50 < q) :=
  claim_C2 "AAA" "image/jpeg" (.ok ⟨"x", ""⟩) (.ok ⟨"\x7b\"confidence\":60\x7d", ""⟩)
